import Mathlib

/-!
Verification of the docvault-ai backend core against its specification.

The Python sources under `src/backend/app` are shallowly embedded here:
Python `str` values are modelled as `List Char`, Python numbers occurring in
rule conditions as `Int` (document field values and rule JSON values are
integers), numeric coercion results and relevance scores as `ℚ` (the scores
involved, multiples of 0.5, are exact both in binary floating point and in
`ℚ`), dictionaries as association lists, raising code as `Except Unit`, and
externally injected capabilities (the spaCy model, the Hugging Face zero-shot
pipeline, PyPDF2 / tesseract) as function parameters.
-/

set_option maxRecDepth 100000

namespace DocVault

/-- Python strings are modelled as lists of characters. -/
abbrev Str := List Char

/-- Python `str.lower()` (ASCII portion, which is all the sources use). -/
def pyLower (s : Str) : Str := s.map Char.toLower

/-- Python `str.upper()` (ASCII portion). -/
def pyUpper (s : Str) : Str := s.map Char.toUpper

/-- Python whitespace test used by `str.strip` and `str.isspace`. -/
def isPySpace (c : Char) : Bool :=
  c = ' ' || c = '\t' || c = '\n' || c = '\r' || c = '\x0b' || c = '\x0c'

/-- Python `str.strip()` with no arguments: drop whitespace at both ends. -/
def pyStrip (s : Str) : Str :=
  (s.dropWhile isPySpace).reverse.dropWhile isPySpace |>.reverse

/-- Python `str.startswith`: the first argument is the candidate head. -/
def pyStartsWith : Str → Str → Bool
  | [], _ => true
  | _ :: _, [] => false
  | a :: as, b :: bs => a = b && pyStartsWith as bs

/-- Python substring membership `needle in haystack` for strings. -/
def pyContains (needle haystack : Str) : Bool :=
  match haystack with
  | [] => pyStartsWith needle []
  | _ :: cs => pyStartsWith needle haystack || pyContains needle cs

/-- Python `str.find`: index of the first occurrence, `none` when absent. -/
def pyFind (needle haystack : Str) : Option Nat :=
  match haystack with
  | [] => if pyStartsWith needle [] then some 0 else none
  | _ :: cs =>
    if pyStartsWith needle haystack then some 0
    else (pyFind needle cs).map (· + 1)

/-- Python `str.replace(pat, "")` for a nonempty pattern: remove every
occurrence scanning left to right.  The fuel argument (initially the
string length, which bounds the number of scan steps) keeps the recursion
structural so that the function reduces definitionally. -/
def pyRemoveAllAux (pat : Str) : Nat → Str → Str
  | _, [] => []
  | 0, s => s
  | fuel + 1, c :: cs =>
    if pyStartsWith pat (c :: cs) && pat.length ≠ 0 then
      pyRemoveAllAux pat fuel (List.drop (pat.length - 1) cs)
    else
      c :: pyRemoveAllAux pat fuel cs

/-- Python `str.replace(pat, "")` for a nonempty pattern. -/
def pyRemoveAll (pat s : Str) : Str := pyRemoveAllAux pat s.length s

/-- Python lexicographic `<` on strings, by code point. -/
def pyStrLt : Str → Str → Bool
  | [], [] => false
  | [], _ :: _ => true
  | _ :: _, [] => false
  | a :: as, b :: bs =>
    if a.toNat < b.toNat then true
    else if b.toNat < a.toNat then false
    else pyStrLt as bs

/-- Python slice `s[a:b]` for natural indices with `a ≤ b`. -/
def pySlice (s : Str) (a b : Nat) : Str := (s.drop a).take (b - a)

/-- A Python value as it occurs in documents and workflow-rule JSON:
a string, an integer, or a list of values. -/
inductive PVal where
  | s (v : Str)
  | i (v : Int)
  | l (vs : List PVal)
deriving Repr

mutual

/-- Python `==` on the embedded values (structural; values of different
shapes compare unequal, as `int == str` and `list == str` do in Python). -/
def pvEq : PVal → PVal → Bool
  | .s a, .s b => a = b
  | .i a, .i b => a = b
  | .l a, .l b => pvListEq a b
  | _, _ => false

/-- Elementwise Python `==` on lists of values. -/
def pvListEq : List PVal → List PVal → Bool
  | [], [] => true
  | x :: xs, y :: ys => pvEq x y && pvListEq xs ys
  | _, _ => false

end

/-- Python list membership `x in l` via `==`. -/
def pvMem (x : PVal) : List PVal → Bool
  | [] => false
  | y :: ys => pvEq y x || pvMem x ys

/-- Parse an unsigned run of decimal digits to a `Nat` together with the
count of digits consumed. -/
def parseDigits : Str → Nat × Nat × Str
  | [] => (0, 0, [])
  | c :: cs =>
    if c.isDigit then
      let (v, n, rest) := parseDigits cs
      -- digits accumulate most-significant first, so recompute place value
      (c.toNat - '0'.toNat) * 10 ^ n + v |> fun v2 => (v2, n + 1, rest)
    else (0, 0, c :: cs)

/-- The syntactic part of Python `float(str)` on a stripped input:
optional sign, digits with an optional fractional part and an optional
decimal exponent.  Returns `(negative, intPart, fracPart, fracDigits,
expNegative, expValue)`; `none` models `ValueError`. -/
def pyParseParts (s : Str) : Option (Bool × Nat × Nat × Nat × Bool × Nat) :=
  let (neg, s) :=
    match s with
    | '-' :: rest => (true, rest)
    | '+' :: rest => (false, rest)
    | _ => (false, s)
  let (ip, ipn, s) := parseDigits s
  let (fp, fpn, s) :=
    match s with
    | '.' :: rest => parseDigits rest
    | _ => (0, 0, s)
  if ipn = 0 && fpn = 0 then none
  else
    match s with
    | [] => some (neg, ip, fp, fpn, false, 0)
    | e :: rest =>
      if e = 'e' || e = 'E' then
        let (eneg, rest) :=
          match rest with
          | '-' :: r => (true, r)
          | '+' :: r => (false, r)
          | _ => (false, rest)
        let (ev, evn, rest) := parseDigits rest
        if evn = 0 || rest ≠ [] then none
        else some (neg, ip, fp, fpn, eneg, ev)
      else none

/-- Python `float(str)` on the decimal forms the application can produce:
optional surrounding whitespace, an optional sign, a digit string with an
optional fractional part and an optional decimal exponent.  Returns `none`
exactly when Python raises `ValueError` on such inputs. -/
def pyParseFloat (s : Str) : Option ℚ :=
  (pyParseParts (pyStrip s)).map fun p =>
    match p with
    | (neg, ip, fp, fpn, eneg, ev) =>
      (if neg then (-1 : ℚ) else 1) * ((ip : ℚ) + (fp : ℚ) / (10 : ℚ) ^ fpn)
        * (10 : ℚ) ^ (if eneg then -(ev : Int) else (ev : Int))

/-- Python `float(x)` applied to an embedded value: numbers coerce, strings
are parsed, lists raise `TypeError` (`none`). -/
def pyFloat : PVal → Option ℚ
  | .i n => some (n : ℚ)
  | .s v => pyParseFloat v
  | .l _ => none

/-- Python `str(x)` for the non-list values the sources stringify
(`contains` only reaches this on non-list field values). -/
def pyStr : PVal → Str
  | .s v => v
  | .i n => (toString n).toList
  | .l _ => []

/-! Workflow rule engine, from `app/services/workflow_service.py`. -/

/-- One entry of a document entity dict, with the two keys the workflow
engine reads (`e["type"]`, `e["value"]`). -/
structure DocEnt where
  type : Str
  value : Str
deriving Repr, DecidableEq

/-- A workflow condition dict: `field`, `operator`, `value`. -/
structure Condition where
  field : Str
  operator : Str
  value : PVal
deriving Repr

/-- A workflow action dict: `type` and the `params` dict. -/
structure Action where
  type : Str
  params : List (Str × Str)
deriving Repr, DecidableEq

/-- A workflow rule dict, with the fields `evaluate` touches. -/
structure Workflow where
  name : Str
  conditions : List Condition
  actions : List Action
  is_active : Bool
  trigger_count : Nat
deriving Repr

/-- The document dict as the workflow engine sees it.  The attributes the
engine addresses by name are record fields; any other key reachable through
the generic `document.get(field)` fallback lives in `extra`. -/
structure WDoc where
  id : Str
  classification : Option PVal
  file_size : Option PVal
  mime_type : Option PVal
  entities : List DocEnt
  tags : List Str
  extra : List (Str × PVal)
deriving Repr

/-- Association-list lookup modelling `dict.get(key)`. -/
def dictGet (m : List (Str × PVal)) (k : Str) : Option PVal :=
  match m with
  | [] => none
  | (k2, v) :: rest => if k2 = k then some v else dictGet rest k

/-- Lookup in an action params dict, modelling `params[key]` access
(`none` models the `KeyError`). -/
def paramsGet (m : List (Str × Str)) (k : Str) : Option Str :=
  match m with
  | [] => none
  | (k2, v) :: rest => if k2 = k then some v else paramsGet rest k

/-- From `WorkflowService._get_entity_values`: values of the entities of
the given type, in document order. -/
def getEntityValues (d : WDoc) (entityType : Str) : List Str :=
  (d.entities.filter (fun e => e.type = entityType)).map (·.value)

/-- The field-resolution block of `WorkflowService._check_conditions`:
named fields, the `entity_<TYPE>` form, then the generic `document.get`
fallback. -/
def resolveField (d : WDoc) (field : Str) : Option PVal :=
  if field = "classification".toList then d.classification
  else if field = "file_size".toList then some (d.file_size.getD (.i 0))
  else if field = "mime_type".toList then d.mime_type
  else if pyStartsWith "entity_".toList field then
    let entityType := pyUpper (pyRemoveAll "entity_".toList field)
    some (.l ((getEntityValues d entityType).map .s))
  else
    dictGet d.extra field

/-- `WorkflowService._evaluate_condition`.  `doc_value = None` yields
`false`; the numeric operators coerce both sides with `float(...)` and a
coercion failure raises (`.error`), as does `.lower()` on a non-string
condition value of `contains` and a non-container right side of `in`. -/
def evalCondition (docValue : Option PVal) (op : Str) (condValue : PVal) :
    Except Unit Bool :=
  match docValue with
  | none => .ok false
  | some v =>
    if op = "equals".toList then .ok (pvEq v condValue)
    else if op = "not_equals".toList then .ok (!pvEq v condValue)
    else if op = "contains".toList then
      match v with
      | .l xs => .ok (pvMem condValue xs)
      | _ =>
        match condValue with
        | .s cv => .ok (pyContains (pyLower cv) (pyLower (pyStr v)))
        | _ => .error ()
    else if op = "greater_than".toList then
      match pyFloat v, pyFloat condValue with
      | some a, some b => .ok (decide (b < a))
      | _, _ => .error ()
    else if op = "less_than".toList then
      match pyFloat v, pyFloat condValue with
      | some a, some b => .ok (decide (a < b))
      | _, _ => .error ()
    else if op = "in".toList then
      match condValue with
      | .l xs => .ok (pvMem v xs)
      | .s cv =>
        match v with
        | .s vs => .ok (pyContains vs cv)
        | _ => .error ()
      | .i _ => .error ()
    else .ok false

/-- `WorkflowService._check_conditions`: AND over the conditions in order,
short-circuiting on the first false one; an exception propagates. -/
def checkConditions (d : WDoc) : List Condition → Except Unit Bool
  | [] => .ok true
  | c :: rest =>
    match evalCondition (resolveField d c.field) c.operator c.value with
    | .error e => .error e
    | .ok false => .ok false
    | .ok true => checkConditions d rest

/-- `WorkflowService._execute_actions` for a single action.  A `tag`
action appends its tag only when absent; a missing `tag` param raises
(`KeyError`); `notify`, `move`, `approve_request` and unknown types only
log. -/
def executeAction (d : WDoc) (a : Action) : Except Unit WDoc :=
  if a.type = "tag".toList then
    match paramsGet a.params "tag".toList with
    | none => .error ()
    | some t =>
      if d.tags.contains t then .ok d
      else .ok { d with tags := d.tags ++ [t] }
  else .ok d

/-- `WorkflowService._execute_actions`: actions in listed order, threading
the document. -/
def executeActions (d : WDoc) : List Action → Except Unit WDoc
  | [] => .ok d
  | a :: rest =>
    match executeAction d a with
    | .error e => .error e
    | .ok d2 => executeActions d2 rest

/-- `WorkflowService.evaluate`: iterate the stored workflows in order,
skip inactive ones, and for each full match execute the actions, increment
`trigger_count`, and append the rule to the triggered list.  Exceptions
from condition evaluation or action execution propagate (there is no
per-rule catch in the source). -/
def evaluate (d : WDoc) : List Workflow → Except Unit (List Workflow × WDoc × List Workflow)
  | [] => .ok ([], d, [])
  | w :: ws =>
    if !w.is_active then
      match evaluate d ws with
      | .error e => .error e
      | .ok (ws2, d2, trig) => .ok (w :: ws2, d2, trig)
    else
      match checkConditions d w.conditions with
      | .error e => .error e
      | .ok false =>
        match evaluate d ws with
        | .error e => .error e
        | .ok (ws2, d2, trig) => .ok (w :: ws2, d2, trig)
      | .ok true =>
        match executeActions d w.actions with
        | .error e => .error e
        | .ok d2 =>
          let w2 := { w with trigger_count := w.trigger_count + 1 }
          match evaluate d2 ws with
          | .error e => .error e
          | .ok (ws2, d3, trig) => .ok (w2 :: ws2, d3, w2 :: trig)

/-! Entity extraction, from `app/ml/ner.py`.  The spaCy model is an
external capability; the regex patterns of `_extract_custom_patterns` are
embedded as explicit backtracking matchers below. -/

/-- Regex `\w` over the ASCII texts the matchers are applied to. -/
def isWordChar (c : Char) : Bool := c.isAlpha || c.isDigit || c = '_'

/-- Regex `\b`: at position `i` of `cs`, exactly one neighbour is a word
character. -/
def isBoundaryAt (cs : Str) (i : Nat) : Bool :=
  let before := match i with
    | 0 => false
    | n + 1 => match cs[n]? with | some c => isWordChar c | none => false
  let after := match cs[i]? with | some c => isWordChar c | none => false
  before != after

/-- Match one mandatory character of a class, then continue. -/
def reqChar (cls : Char → Bool) (cs : Str) (i : Nat) (k : Nat → Option Nat) :
    Option Nat :=
  match cs[i]? with
  | some c => if cls c then k (i + 1) else none
  | none => none

/-- Regex `X?` on a character class, greedy: try consuming, else skip. -/
def optChar (cls : Char → Bool) (cs : Str) (i : Nat) (k : Nat → Option Nat) :
    Option Nat :=
  match cs[i]? with
  | some c => if cls c then ((k (i + 1)).orElse fun _ => k i) else k i
  | none => k i

/-- Regex `X{n}` on a character class: exactly `n` characters. -/
def exactRun (cls : Char → Bool) : Nat → Str → Nat → (Nat → Option Nat) → Option Nat
  | 0, _, i, k => k i
  | n + 1, cs, i, k => reqChar cls cs i fun j => exactRun cls n cs j k

/-- Length of the maximal run of class characters starting at `i`. -/
def runLenAt (cls : Char → Bool) (cs : Str) (i : Nat) : Nat :=
  ((cs.drop i).takeWhile cls).length

/-- Try continuation at offsets `i + n`, `i + n - 1`, …, `i + lo`
(longest first), the backtracking order of a greedy repetition. -/
def tryLensDesc (i lo : Nat) (k : Nat → Option Nat) : Nat → Option Nat
  | 0 => if 0 < lo then none else k i
  | n + 1 =>
    if n + 1 < lo then none
    else
      match k (i + n + 1) with
      | some r => some r
      | none => tryLensDesc i lo k n

/-- Regex `X{lo,}` on a character class, greedy with backtracking. -/
def greedyRun (cls : Char → Bool) (lo : Nat) (cs : Str) (i : Nat)
    (k : Nat → Option Nat) : Option Nat :=
  tryLensDesc i lo k (runLenAt cls cs i)

/-- Regex `X{lo,hi}` on a character class, greedy with backtracking. -/
def boundedRun (cls : Char → Bool) (lo hi : Nat) (cs : Str) (i : Nat)
    (k : Nat → Option Nat) : Option Nat :=
  tryLensDesc i lo k (min hi (runLenAt cls cs i))

/-- Case-insensitive literal, as under `re.IGNORECASE`. -/
def reqLitCI : Str → Str → Nat → (Nat → Option Nat) → Option Nat
  | [], _, i, k => k i
  | a :: as, cs, i, k =>
    match cs[i]? with
    | some c => if c.toLower = a.toLower then reqLitCI as cs (i + 1) k else none
    | none => none

/-- Character classes of the email pattern
`\b[A-Za-z0-9._%+-]+@[A-Za-z0-9.-]+\.[A-Z|a-z]{2,}\b`. -/
def emailLocalChar (c : Char) : Bool :=
  c.isAlpha || c.isDigit || c = '.' || c = '_' || c = '%' || c = '+' || c = '-'

/-- Domain-part class `[A-Za-z0-9.-]`. -/
def emailDomChar (c : Char) : Bool := c.isAlpha || c.isDigit || c = '.' || c = '-'

/-- Top-level-domain class `[A-Z|a-z]` (the literal bar is in the class). -/
def emailTldChar (c : Char) : Bool := c.isAlpha || c = '|'

/-- Attempt the email pattern at position `i`; returns the match end. -/
def matchEmailAt (cs : Str) (i : Nat) : Option Nat :=
  if !isBoundaryAt cs i then none
  else
    greedyRun emailLocalChar 1 cs i fun j =>
      reqChar (· = '@') cs j fun j2 =>
        greedyRun emailDomChar 1 cs j2 fun j3 =>
          reqChar (· = '.') cs j3 fun j4 =>
            greedyRun emailTldChar 2 cs j4 fun j5 =>
              if isBoundaryAt cs j5 then some j5 else none

/-- Separator class `[-.\s]` of the phone pattern. -/
def phoneSepChar (c : Char) : Bool := c = '-' || c = '.' || isPySpace c

/-- Attempt the phone pattern
`\b(?:\+?1[-.\s]?)?\(?[0-9]{3}\)?[-.\s]?[0-9]{3}[-.\s]?[0-9]{4}\b` at `i`. -/
def matchPhoneAt (cs : Str) (i : Nat) : Option Nat :=
  if !isBoundaryAt cs i then none
  else
    let tail := fun (j : Nat) =>
      optChar (· = '(') cs j fun j2 =>
        exactRun Char.isDigit 3 cs j2 fun j3 =>
          optChar (· = ')') cs j3 fun j4 =>
            optChar phoneSepChar cs j4 fun j5 =>
              exactRun Char.isDigit 3 cs j5 fun j6 =>
                optChar phoneSepChar cs j6 fun j7 =>
                  exactRun Char.isDigit 4 cs j7 fun j8 =>
                    if isBoundaryAt cs j8 then some j8 else none
    let country := fun (k : Nat → Option Nat) (j : Nat) =>
      optChar (· = '+') cs j fun j2 =>
        reqChar (· = '1') cs j2 fun j3 =>
          optChar phoneSepChar cs j3 k
    (country tail i).orElse fun _ => tail i

/-- Reference-id class `[A-Z0-9]` under `re.IGNORECASE`. -/
def refIdChar (c : Char) : Bool := c.isAlpha || c.isDigit

/-- Attempt the reference pattern
`\b(?:INV|REF|PO|ORDER)[#\-]?\s*[A-Z0-9]{4,12}\b` (IGNORECASE) at `i`. -/
def matchRefAt (cs : Str) (i : Nat) : Option Nat :=
  if !isBoundaryAt cs i then none
  else
    let k := fun (j : Nat) =>
      optChar (fun c => c = '#' || c = '-') cs j fun j2 =>
        greedyRun isPySpace 0 cs j2 fun j3 =>
          boundedRun refIdChar 4 12 cs j3 fun j4 =>
            if isBoundaryAt cs j4 then some j4 else none
    (reqLitCI ("INV".toList) cs i k).orElse fun _ =>
      (reqLitCI ("REF".toList) cs i k).orElse fun _ =>
        (reqLitCI ("PO".toList) cs i k).orElse fun _ =>
          reqLitCI ("ORDER".toList) cs i k

/-- `re.finditer`: leftmost matches, resuming after each match end. -/
def findIterFrom (m : Str → Nat → Option Nat) (cs : Str) : Nat → Nat → List (Nat × Nat)
  | _, 0 => []
  | i, fuel + 1 =>
    if cs.length < i then []
    else
      match m cs i with
      | some e =>
        if i < e then (i, e) :: findIterFrom m cs e fuel
        else (i, e) :: findIterFrom m cs (e + 1) fuel
      | none => findIterFrom m cs (i + 1) fuel

/-- All matches of a pattern in a text, as `(start, end)` pairs. -/
def findIter (m : Str → Nat → Option Nat) (cs : Str) : List (Nat × Nat) :=
  findIterFrom m cs 0 (cs.length + 1)

/-- An extracted entity dict, as built in `EntityExtractor.extract` and
`EntityExtractor._extract_custom_patterns` (`endPos` is the `end` key). -/
structure Ent where
  type : Str
  value : Str
  original_type : Str
  start : Nat
  endPos : Nat
  confidence : ℚ
deriving Repr, DecidableEq

/-- One spaCy entity as produced by the external `nlp` model. -/
structure SpacyEnt where
  label : Str
  text : Str
  start_char : Nat
  end_char : Nat
deriving Repr

/-- `EntityExtractor._map_entity_type`: the mapping dict with default
`OTHER`. -/
def mapEntityType (t : Str) : Str :=
  (([("PERSON", "PERSON"), ("ORG", "ORGANIZATION"), ("GPE", "LOCATION"),
     ("LOC", "LOCATION"), ("DATE", "DATE"), ("TIME", "TIME"),
     ("MONEY", "MONEY"), ("PERCENT", "PERCENTAGE"), ("CARDINAL", "NUMBER"),
     ("ORDINAL", "NUMBER"), ("QUANTITY", "QUANTITY"), ("EVENT", "EVENT"),
     ("FAC", "FACILITY"), ("PRODUCT", "PRODUCT"), ("WORK_OF_ART", "WORK"),
     ("LAW", "LAW"), ("LANGUAGE", "LANGUAGE"), ("NORP", "GROUP")]
      : List (String × String)).lookup t.asString).map String.toList
    |>.getD ("OTHER".toList)

/-- The deduplicating loop over `doc.ents` in `EntityExtractor.extract`:
skip an entity whose `(label, text.strip().lower())` key was seen. -/
def spacyDedup (seen : List (Str × Str)) : List SpacyEnt → List Ent
  | [] => []
  | e :: rest =>
    if seen.contains (e.label, pyLower (pyStrip e.text)) then
      spacyDedup seen rest
    else
      { type := mapEntityType e.label, value := pyStrip e.text,
        original_type := e.label, start := e.start_char,
        endPos := e.end_char, confidence := 85 / 100 }
        :: spacyDedup ((e.label, pyLower (pyStrip e.text)) :: seen) rest

/-- `EntityExtractor._extract_custom_patterns`: emails, then phone
numbers, then reference numbers, each via `re.finditer`. -/
def extractCustomPatterns (text : Str) : List Ent :=
  ((findIter matchEmailAt text).map fun p =>
    { type := "EMAIL".toList, value := pySlice text p.1 p.2,
      original_type := "EMAIL".toList, start := p.1, endPos := p.2,
      confidence := 95 / 100 })
  ++ ((findIter matchPhoneAt text).map fun p =>
    { type := "PHONE".toList, value := pySlice text p.1 p.2,
      original_type := "PHONE".toList, start := p.1, endPos := p.2,
      confidence := 90 / 100 })
  ++ ((findIter matchRefAt text).map fun p =>
    { type := "REFERENCE_NUMBER".toList, value := pySlice text p.1 p.2,
      original_type := "REFERENCE".toList, start := p.1, endPos := p.2,
      confidence := 85 / 100 })

/-- The body of the `try` block of `EntityExtractor.extract`: run the
external model, deduplicate its entities, append the custom patterns; a
raising model degrades to the empty list. -/
def nerCore (nlp : Str → Except Unit (List SpacyEnt)) (text : Str) : List Ent :=
  match nlp text with
  | .error _ => []
  | .ok ents => spacyDedup [] ents ++ extractCustomPatterns text

/-- `EntityExtractor.extract` with the default `max_length = 100000`:
empty or whitespace-only text short-circuits to `[]`, longer text is
truncated before processing. -/
def nerExtract (nlp : Str → Except Unit (List SpacyEnt)) (text : Str) : List Ent :=
  if text = [] || pyStrip text = [] then []
  else nerCore nlp (if 100000 < text.length then text.take 100000 else text)

/-- `EntityExtractor.get_entity_summary` inner update: append the value
under its type key, inserting the key on first sight. -/
def addSummary (m : List (Str × List Str)) (t v : Str) : List (Str × List Str) :=
  match m with
  | [] => [(t, [v])]
  | (k, vs) :: rest =>
    if k = t then (k, vs ++ [v]) :: rest else (k, vs) :: addSummary rest t v

/-- `EntityExtractor.get_entity_summary`. -/
def entitySummary (ents : List Ent) : List (Str × List Str) :=
  ents.foldl (fun m e => addSummary m e.type e.value) []

/-! Classification, from `app/ml/classifier.py`.  The Hugging Face
zero-shot pipeline is an external capability. -/

/-- The fixed category list `DOCUMENT_CATEGORIES`. -/
def DOCUMENT_CATEGORIES : List Str :=
  (["invoice", "contract", "report", "letter", "form", "receipt", "memo",
    "other"] : List String).map String.toList

/-- A classification result dict: `label`, `confidence`, `all_scores`. -/
structure CRes where
  label : Str
  confidence : ℚ
  all_scores : List (Str × ℚ)
deriving Repr

/-- Python `round(x, 4)`.  Modelled over `ℚ`; it agrees with the float
computation on every value this application feeds it (no exact half-way
ties arise from thirds or from exact endpoints). -/
def pyRound4 (q : ℚ) : ℚ := (round (q * 10000) : ℚ) / 10000

/-- The `KeywordClassifier.KEYWORDS` table, in source order. -/
def KEYWORDS : List (Str × List Str) :=
  ([("invoice", ["invoice", "bill", "payment due", "amount due", "total due",
                 "subtotal"]),
    ("contract", ["agreement", "contract", "terms and conditions",
                  "hereby agree", "party", "whereas"]),
    ("report", ["report", "summary", "findings", "analysis", "conclusion",
                "executive summary"]),
    ("letter", ["dear", "sincerely", "regards", "to whom it may concern"]),
    ("form", ["form", "please fill", "application", "checkbox",
              "signature required"]),
    ("receipt", ["receipt", "transaction", "paid",
                 "thank you for your purchase"]),
    ("memo", ["memo", "memorandum", "to:", "from:", "subject:", "re:"])]
    : List (String × List String)).map
    fun p => (p.1.toList, p.2.map String.toList)

/-- Python `max(scores, key=scores.get)` over an association list: the
first key attaining the maximal value, in iteration (insertion) order. -/
def argmaxFirst : List (Str × Nat) → Str × Nat
  | [] => ([], 0)
  | [p] => p
  | p :: q :: rest =>
    if p.2 < (argmaxFirst (q :: rest)).2 then argmaxFirst (q :: rest) else p

/-- `KeywordClassifier.classify`: count keyword hits per category on the
lowercased full text, return `other` at 0.5 when nothing hits, else the
first best category with confidence `min(score/3, 1.0)` rounded to 4
places. -/
def keywordClassify (text : Str) : CRes :=
  let textLower := pyLower text
  let scores : List (Str × Nat) :=
    KEYWORDS.map fun p =>
      (p.1, (p.2.filter (fun kw => pyContains kw textLower)).length)
  let allScores : List (Str × ℚ) := scores.map fun p => (p.1, (p.2 : ℚ))
  if scores.all (fun p => p.2 = 0) then
    { label := "other".toList, confidence := 1 / 2, all_scores := allScores }
  else
    let best := argmaxFirst scores
    let confidence : ℚ := min ((best.2 : ℚ) / 3) 1
    { label := best.1, confidence := pyRound4 confidence,
      all_scores := allScores }

/-- The output of the external zero-shot pipeline: candidate labels in
descending score order with their scores. -/
structure ZSRes where
  labels : List Str
  scores : List ℚ
deriving Repr

/-- The default result `DocumentClassifier.classify` returns when the
model is unavailable, the input is blank, or the `try` block raises. -/
def otherZero : CRes :=
  { label := "other".toList, confidence := 0, all_scores := [] }

/-- `DocumentClassifier.classify` with the default `max_length = 1024`:
`loaded` is whether `__init__` managed to build `self.classifier`, `zs`
the external zero-shot pipeline (which may raise).  The text is truncated
to 1024 characters before any processing; every failure inside the `try`,
including an empty label list, degrades to `otherZero`. -/
def docClassify (loaded : Bool) (zs : Str → Except Unit ZSRes) (text : Str) :
    CRes :=
  if !loaded then otherZero
  else
    let t := if 1024 < text.length then text.take 1024 else text
    if pyStrip t = [] then otherZero
    else
      match zs t with
      | .error _ => otherZero
      | .ok r =>
        match r.labels, r.scores with
        | l0 :: _, s0 :: _ =>
          { label := l0, confidence := pyRound4 s0,
            all_scores := (r.labels.zip r.scores).map
              fun p => (p.1, pyRound4 p.2) }
        | _, _ => otherZero

/-! Text extraction, from `app/ml/ocr.py`, and the pipeline, from
`app/ml/pipeline.py`.  PyPDF2, pdf2image and tesseract are external
capabilities; every leaf call sits in a `try` that degrades to the empty
string. -/

/-- The external leaves `OCRProcessor` calls.  `decodeText` models
`bytes.decode("utf-8", errors="ignore")`, which never raises. -/
structure OCRCaps where
  readPdfText : List Nat → Except Unit Str
  ocrPdf : List Nat → Except Unit Str
  ocrImage : List Nat → Except Unit Str
  decodeText : List Nat → Str

/-- Collapse a capability failure to the empty string, as the `except`
blocks of `_extract_pdf_text`, `_ocr_pdf` and `extract_from_image` do. -/
def exceptD (r : Except Unit Str) : Str :=
  match r with
  | .ok s => s
  | .error _ => []

/-- `OCRProcessor.extract_from_pdf`: direct text layer first, OCR only
when the text layer strip-reduces to empty, result stripped. -/
def extractFromPdf (caps : OCRCaps) (bs : List Nat) : Str :=
  let text := exceptD (caps.readPdfText bs)
  let text := if pyStrip text = [] then exceptD (caps.ocrPdf bs) else text
  pyStrip text

/-- `OCRProcessor.extract_from_image`. -/
def extractFromImage (caps : OCRCaps) (bs : List Nat) : Str :=
  pyStrip (exceptD (caps.ocrImage bs))

/-- `OCRProcessor.extract_text`: dispatch on the MIME type; unrecognized
types yield the empty string. -/
def ocrExtractText (caps : OCRCaps) (bs : List Nat) (mime : Str) : Str :=
  if mime = "application/pdf".toList then extractFromPdf caps bs
  else if pyStartsWith ("image/".toList) mime then extractFromImage caps bs
  else if mime = "text/plain".toList || mime = "text/html".toList
      || mime = "text/csv".toList then caps.decodeText bs
  else []

/-- The dict `process_document` returns.  The `no_text` return carries
neither `all_classifications` nor `entity_summary`, hence the `Option`
fields. -/
structure PResult where
  text : Str
  classification : Str
  confidence : ℚ
  all_classifications : Option (List (Str × ℚ))
  entities : List Ent
  entity_summary : Option (List (Str × List Str))
  status : Str
deriving Repr

/-- The early return of `process_document` on blank extracted text. -/
def noTextResult : PResult :=
  { text := [], classification := "other".toList, confidence := 0,
    all_classifications := none, entities := [],
    entity_summary := none, status := "no_text".toList }

/-- `process_document` from `app/ml/pipeline.py`: extract text, short
circuit on blank text, classify with a caught fallback to
`KeywordClassifier` on any classifier exception, extract entities, and
assemble the result.  The total return type witnesses that the pipeline
itself never raises. -/
def processDocument (caps : OCRCaps) (classify : Str → Except Unit CRes)
    (nlp : Str → Except Unit (List SpacyEnt)) (content : List Nat)
    (mime : Str) : PResult :=
  let text := ocrExtractText caps content mime
  if pyStrip text = [] then noTextResult
  else
    let cres :=
      match classify text with
      | .ok r => r
      | .error _ => keywordClassify text
    let ents := nerExtract nlp text
    { text := text, classification := cres.label,
      confidence := cres.confidence,
      all_classifications := some cres.all_scores, entities := ents,
      entity_summary := some (entitySummary ents),
      status := "processed".toList }

/-! Search, from `app/services/search_service.py`. -/

/-- A stored document as the search loop reads it. -/
structure SDoc where
  user_id : Str
  filename : Str
  classification : Option Str
  extracted_text : Option Str
  created_at : Str
deriving Repr, DecidableEq

/-- An entity as the search loop reads it. -/
structure SEnt where
  type : Str
  value : Str
deriving Repr, DecidableEq

/-- One search result dict. -/
structure SResult where
  id : Str
  filename : Str
  classification : Option Str
  snippet : Str
  score : ℚ
  created_at : Str
deriving Repr, DecidableEq

/-- Python truthiness of an optional string parameter
(`None` and `""` are falsy). -/
def optTruthy : Option Str → Bool
  | none => false
  | some s => s ≠ []

/-- Whether an entity satisfies both the `entity_type` and `entity_value`
filters, the guard of the `+0.5` bonus. -/
def entFilterSat (et ev : Option Str) (e : SEnt) : Bool :=
  (match et with
   | some t => t ≠ [] && e.type = t
   | none => false)
  && (match ev with
      | some v => v ≠ [] && pyContains (pyLower v) (pyLower e.value)
      | none => false)

/-- One iteration of the entity loop of `SearchService.search`: `+1.5`
when the entity value contains the query, then `+0.5` when the entity
satisfies both entity filters. -/
def entStep (queryLower : Str) (et ev : Option Str) (acc : ℚ) (e : SEnt) : ℚ :=
  let acc2 := if pyContains queryLower (pyLower e.value) then acc + 3 / 2
    else acc
  if entFilterSat et ev e then acc2 + 1 / 2 else acc2

/-- The relevance block of `SearchService.search` for one document:
filename bonus, body bonus with its ellipsis-wrapped snippet, then the
per-entity loop.  Returns `(score, snippet)`. -/
def scoreDoc (query : Str) (et ev : Option Str) (doc : SDoc)
    (ents : List SEnt) : ℚ × Str :=
  let queryLower := pyLower query
  let score : ℚ := 0
  let snippet : Str := []
  let (score, snippet) :=
    if pyContains queryLower (pyLower doc.filename) then
      (score + 2, doc.filename)
    else (score, snippet)
  let text := doc.extracted_text.getD []
  let (score, snippet) :=
    if pyContains queryLower (pyLower text) then
      let idx := (pyFind queryLower (pyLower text)).getD 0
      let start := idx - 50
      let stop := min text.length (idx + query.length + 50)
      (score + 1, ("...".toList) ++ pySlice text start stop ++ ("...".toList))
    else (score, snippet)
  let score := ents.foldl (entStep queryLower et ev) score
  (score, snippet)

/-- Lookup of `_entities.get(doc_id, [])`. -/
def entsGet (m : List (Str × List SEnt)) (k : Str) : List SEnt :=
  match m with
  | [] => []
  | (k2, v) :: rest => if k2 = k then v else entsGet rest k

/-- Whether the classification pre-filter rejects the document
(`classification and doc.get("classification") != classification`). -/
def clsRejects (cls : Option Str) (doc : SDoc) : Bool :=
  optTruthy cls &&
    (match doc.classification, cls with
     | some dc, some c => dc ≠ c
     | none, some _ => true
     | _, none => false)

/-- The document loop of `SearchService.search`: filter by owner,
classification and date window, score, and keep scores above zero, with
the falsy-snippet fallback to the filename. -/
def searchLoop (entsMap : List (Str × List SEnt)) (userId query : Str)
    (cls et ev dateFrom dateTo : Option Str) :
    List (Str × SDoc) → List SResult
  | [] => []
  | (docId, doc) :: rest =>
    let tail := searchLoop entsMap userId query cls et ev dateFrom dateTo rest
    if doc.user_id ≠ userId then tail
    else if clsRejects cls doc then tail
    else if optTruthy dateFrom && pyStrLt doc.created_at (dateFrom.getD []) then
      tail
    else if optTruthy dateTo && pyStrLt (dateTo.getD []) doc.created_at then
      tail
    else
      let p := scoreDoc query et ev doc (entsGet entsMap docId)
      if 0 < p.1 then
        { id := docId, filename := doc.filename,
          classification := doc.classification,
          snippet := if p.2 = [] then doc.filename else p.2,
          score := p.1, created_at := doc.created_at } :: tail
      else tail

/-- Stable insertion of one result into a score-descending list, placing
it after every earlier result of equal score, as Python's stable
`list.sort(key=score, reverse=True)` does. -/
def pyInsertDesc (x : SResult) : List SResult → List SResult
  | [] => [x]
  | y :: ys => if x.score ≤ y.score then y :: pyInsertDesc x ys
    else x :: y :: ys

/-- Stable sort by score descending. -/
def pySortDesc (l : List SResult) : List SResult :=
  l.foldl (fun acc x => pyInsertDesc x acc) []

/-- `SearchService.search`: loop, sort by score descending, paginate with
`offset = (page - 1) * page_size`, returning the page and the total count
of scored documents.  (`page ≥ 1`, as the API guarantees.) -/
def search (docs : List (Str × SDoc)) (entsMap : List (Str × List SEnt))
    (userId query : Str) (cls et ev dateFrom dateTo : Option Str)
    (page pageSize : Nat) : List SResult × Nat :=
  let results :=
    pySortDesc (searchLoop entsMap userId query cls et ev dateFrom dateTo docs)
  let total := results.length
  let start := (page - 1) * pageSize
  ((results.drop start).take pageSize, total)

/-! Helper lemmas about the rule engine. -/

/-- A successful action leaves the tags unchanged or appends one absent
tag. -/
lemma executeAction_ok_tags {d d2 : WDoc} {a : Action}
    (h : executeAction d a = .ok d2) :
    d2.tags = d.tags ∨ ∃ s, s ∉ d.tags ∧ d2.tags = d.tags ++ [s] := by
  unfold executeAction at h
  split at h
  · cases hp : paramsGet a.params ("tag".toList) with
    | none => rw [hp] at h; simp at h
    | some s =>
      simp only [hp] at h
      by_cases hc : d.tags.contains s = true
      · rw [if_pos hc] at h
        cases h
        exact Or.inl rfl
      · rw [if_neg hc] at h
        cases h
        exact Or.inr ⟨s, by simpa using hc, rfl⟩
  · cases h
    exact Or.inl rfl

/-- A successful action preserves the multiplicity of a tag that is
already present. -/
lemma executeAction_count_preserve {d d2 : WDoc} {a : Action} {t : Str}
    (h : executeAction d a = .ok d2) (h1 : 1 ≤ d.tags.count t) :
    d2.tags.count t = d.tags.count t := by
  rcases executeAction_ok_tags h with he | ⟨s, hs, he⟩
  · rw [he]
  · rw [he, List.count_append]
    have hne : s ≠ t := by
      rintro rfl
      exact hs (List.one_le_count_iff.mp h1)
    simp [List.count_singleton, hne]

/-- A successful action keeps a tag multiplicity bounded by one. -/
lemma executeAction_count_le {d d2 : WDoc} {a : Action} {t : Str}
    (h : executeAction d a = .ok d2) (h1 : d.tags.count t ≤ 1) :
    d2.tags.count t ≤ 1 := by
  rcases executeAction_ok_tags h with he | ⟨s, hs, he⟩
  · rw [he]; exact h1
  · rw [he, List.count_append]
    by_cases hst : s = t
    · subst hst
      have : d.tags.count s = 0 := List.count_eq_zero.mpr hs
      simp [this]
    · simp [List.count_singleton, hst, h1]

/-- The explicit tag action with parameter `t` sets the multiplicity of
`t` to one when it was at most one. -/
lemma executeAction_tag_sets {d d2 : WDoc} {t : Str}
    (h : executeAction d ⟨"tag".toList, [("tag".toList, t)]⟩ = .ok d2)
    (hle : d.tags.count t ≤ 1) : d2.tags.count t = 1 := by
  unfold executeAction at h
  rw [if_pos rfl] at h
  have hp : paramsGet [((("tag".toList) : Str), t)] ("tag".toList) = some t := rfl
  simp only [hp] at h
  by_cases hc : d.tags.contains t = true
  · rw [if_pos hc] at h
    cases h
    have h1 : 1 ≤ d.tags.count t :=
      List.one_le_count_iff.mpr (by simpa using hc)
    omega
  · rw [if_neg hc] at h
    cases h
    have h0 : d.tags.count t = 0 := List.count_eq_zero.mpr (by simpa using hc)
    simp [List.count_append, h0, List.count_singleton]

/-- Running an action list preserves the multiplicity of a present
tag. -/
lemma executeActions_count_preserve {t : Str} :
    ∀ (as : List Action) (d d2 : WDoc), executeActions d as = .ok d2 →
      1 ≤ d.tags.count t → d2.tags.count t = d.tags.count t := by
  intro as
  induction as with
  | nil => intro d d2 h h1; cases h; rfl
  | cons a rest ih =>
    intro d d2 h h1
    unfold executeActions at h
    cases ha : executeAction d a with
    | error e => rw [ha] at h; cases h
    | ok d1 =>
      rw [ha] at h
      have heq := executeAction_count_preserve ha h1
      rw [ih d1 d2 h (heq ▸ h1), heq]

/-- Running an action list containing the tag action for `t` leaves `t`
with multiplicity exactly one, provided it started at most one. -/
lemma executeActions_tag_once {t : Str} :
    ∀ (as : List Action) (d d2 : WDoc),
      (⟨"tag".toList, [("tag".toList, t)]⟩ : Action) ∈ as →
      executeActions d as = .ok d2 →
      d.tags.count t ≤ 1 → d2.tags.count t = 1 := by
  intro as
  induction as with
  | nil => intro d d2 hm; cases hm
  | cons a rest ih =>
    intro d d2 hm h hle
    unfold executeActions at h
    cases ha : executeAction d a with
    | error e => rw [ha] at h; cases h
    | ok d1 =>
      rw [ha] at h
      rcases List.mem_cons.mp hm with hha | hmrest
      · subst hha
        have h1 := executeAction_tag_sets ha hle
        have := executeActions_count_preserve rest d1 d2 h (le_of_eq h1.symm)
        omega
      · exact ih d1 d2 hmrest h (executeAction_count_le ha hle)

/-- Unfolding `evaluate` on a single matching active rule. -/
lemma evaluate_single_match {R : Workflow} {d d2 : WDoc}
    (hact : R.is_active = true)
    (hcond : checkConditions d R.conditions = .ok true)
    (hexec : executeActions d R.actions = .ok d2) :
    evaluate d [R] = .ok ([{ R with trigger_count := R.trigger_count + 1 }],
      d2, [{ R with trigger_count := R.trigger_count + 1 }]) := by
  simp [evaluate, hact, hcond, hexec]

/-! Claim theorems for the rule engine. -/

/-- Claim C2 (corrected).  The claim says a failed numeric coercion on
`greater_than` or `less_than` makes the condition evaluate to `false`
without raising.  In the source, `_evaluate_condition` applies
`float(...)` to both sides with no `try`, so a failed coercion raises
(`ValueError` on a non-numeric string, `TypeError` on a list-valued
entity field).  Amended statement proved here: both sides are coerced and
compared when both coercions succeed, and a failed coercion on either
side makes condition evaluation raise rather than return `false`. -/
theorem claim2_numeric_comparison_raises (v cv : PVal) :
    (∀ a b : ℚ, pyFloat v = some a → pyFloat cv = some b →
      evalCondition (some v) ("greater_than".toList) cv = .ok (decide (b < a)) ∧
      evalCondition (some v) ("less_than".toList) cv = .ok (decide (a < b))) ∧
    ((pyFloat v = none ∨ pyFloat cv = none) →
      evalCondition (some v) ("greater_than".toList) cv = .error () ∧
      evalCondition (some v) ("less_than".toList) cv = .error ()) := by
  have hgt : evalCondition (some v) ("greater_than".toList) cv =
      (match pyFloat v, pyFloat cv with
       | some a, some b => .ok (decide (b < a))
       | _, _ => .error ()) := rfl
  have hlt : evalCondition (some v) ("less_than".toList) cv =
      (match pyFloat v, pyFloat cv with
       | some a, some b => .ok (decide (a < b))
       | _, _ => .error ()) := rfl
  constructor
  · intro a b ha hb
    rw [hgt, hlt, ha, hb]
    exact ⟨rfl, rfl⟩
  · intro hfail
    rw [hgt, hlt]
    rcases hfail with hv | hcv
    · rw [hv]
      cases pyFloat cv <;> exact ⟨rfl, rfl⟩
    · rw [hcv]
      cases pyFloat v <;> exact ⟨rfl, rfl⟩

/-- Witness for C2: `float("15000") > float(10000)` compares numerically,
and a list-valued left side raises. -/
theorem claim2_witness :
    evalCondition (some (.s ("15000".toList))) ("greater_than".toList)
      (.i 10000) = .ok true ∧
    evalCondition (some (.l [])) ("greater_than".toList) (.i 10000)
      = .error () := by
  constructor
  · have h15 : pyFloat (.s ("15000".toList)) = some 15000 := by
      show pyParseFloat ("15000".toList) = some 15000
      unfold pyParseFloat
      rw [show pyParseParts (pyStrip ("15000".toList))
          = some (false, 15000, 0, 0, false, 0) from by decide]
      show some _ = some (15000 : ℚ)
      norm_num
    have h10 : pyFloat (PVal.i 10000) = some 10000 := by
      simp [pyFloat]
    have h := (claim2_numeric_comparison_raises (.s ("15000".toList))
      (.i 10000)).1 15000 10000 h15 h10
    rw [h.1]
    norm_num
  · exact ((claim2_numeric_comparison_raises (.l []) (.i 10000)).2
      (Or.inl rfl)).1

/-- Counterexample to C2 as stated: on a list-valued entity field,
`greater_than` raises (`.error`) instead of evaluating to `false`. -/
theorem claim2_counterexample :
    evalCondition (some (.l [.s ("15000".toList)])) ("greater_than".toList)
      (.i 10000) = .error () := rfl

/-- Claim C3 (corrected).  The claim says a failing rule is caught and
skipped so that every other rule is still evaluated.  The source has no
`try` around per-rule evaluation: an exception from one rule propagates
out of `evaluate`, so no remaining rule is evaluated and no triggered
list is returned.  Amended statement proved here: if an active rule's
condition evaluation raises, `evaluate` on a store beginning with that
rule raises. -/
theorem claim3_rule_exception_aborts_evaluate (w : Workflow)
    (ws : List Workflow) (d : WDoc) (hact : w.is_active = true)
    (herr : checkConditions d w.conditions = .error ()) :
    evaluate d (w :: ws) = .error () := by
  simp [evaluate, hact, herr]

/-- A rule whose single condition coerces the string classification with
`float(...)` and therefore raises. -/
def wBad3 : Workflow :=
  { name := "bad".toList,
    conditions := [⟨"classification".toList, "greater_than".toList, .i 100⟩],
    actions := [], is_active := true, trigger_count := 0 }

/-- A rule with no conditions (vacuously matching) and one tag action. -/
def wGood3 : Workflow :=
  { name := "good".toList, conditions := [],
    actions := [⟨"tag".toList, [("tag".toList, "matched".toList)]⟩],
    is_active := true, trigger_count := 0 }

/-- A document classified as an invoice. -/
def dC3 : WDoc :=
  { id := "d1".toList, classification := some (.s ("invoice".toList)),
    file_size := none, mime_type := none, entities := [], tags := [],
    extra := [] }

/-- Witness for C3 at a concrete store and document. -/
theorem claim3_witness : evaluate dC3 [wBad3, wGood3] = .error () :=
  claim3_rule_exception_aborts_evaluate wBad3 [wGood3] dC3 rfl rfl

/-- Counterexample to C3 as stated: with the raising rule present the
second rule is never evaluated and no triggered list is returned, even
though alone it would trigger. -/
theorem claim3_counterexample :
    evaluate dC3 [wBad3, wGood3] = .error () ∧
    evaluate dC3 [wGood3] =
      .ok ([{ wGood3 with trigger_count := 1 }],
        { dC3 with tags := ["matched".toList] },
        [{ wGood3 with trigger_count := 1 }]) :=
  ⟨rfl, rfl⟩

/-- Claim C4 (confirmed).  One `evaluate` call triggers a rule at most
once: an active rule whose conditions all hold is appended to the
triggered list exactly once with `trigger_count` incremented by exactly
one, a tag action leaves its tag present exactly once (when the tag
multiplicity starts at most one, i.e. tags form a set), and an inactive
rule or one with a false condition leaves the document, the rule and the
triggered list untouched. -/
theorem claim4_trigger_once (R : Workflow) (d : WDoc) :
    (R.is_active = true →
      ∀ d2 : WDoc, checkConditions d R.conditions = .ok true →
        executeActions d R.actions = .ok d2 →
        evaluate d [R] =
          .ok ([{ R with trigger_count := R.trigger_count + 1 }], d2,
            [{ R with trigger_count := R.trigger_count + 1 }])) ∧
    (∀ (t : Str) (d2 : WDoc),
      (⟨"tag".toList, [("tag".toList, t)]⟩ : Action) ∈ R.actions →
      executeActions d R.actions = .ok d2 →
      d.tags.count t ≤ 1 → d2.tags.count t = 1) ∧
    (R.is_active = false → evaluate d [R] = .ok ([R], d, [])) ∧
    (R.is_active = true → checkConditions d R.conditions = .ok false →
      evaluate d [R] = .ok ([R], d, [])) := by
  refine ⟨?_, ?_, ?_, ?_⟩
  · intro hact d2 hcond hexec
    exact evaluate_single_match hact hcond hexec
  · intro t d2 hm hexec hle
    exact executeActions_tag_once R.actions d d2 hm hexec hle
  · intro hact
    simp [evaluate, hact]
  · intro hact hcond
    simp [evaluate, hact, hcond]

/-- The high-value rule of the specification's test scenario. -/
def r4 : Workflow :=
  { name := "high value".toList,
    conditions :=
      [⟨"classification".toList, "equals".toList, .s ("invoice".toList)⟩,
       ⟨"entity_MONEY".toList, "contains".toList, .s ("15000".toList)⟩],
    actions := [⟨"tag".toList, [("tag".toList, "high-value".toList)]⟩],
    is_active := true, trigger_count := 0 }

/-- The matching invoice document of that scenario. -/
def d4 : WDoc :=
  { id := "doc1".toList, classification := some (.s ("invoice".toList)),
    file_size := none, mime_type := none,
    entities := [⟨"MONEY".toList, "15000".toList⟩], tags := [],
    extra := [] }

/-- The document after the tag action ran. -/
def d4t : WDoc := { d4 with tags := ["high-value".toList] }

/-- Witness for C4 at the specification's scenario. -/
theorem claim4_witness :
    evaluate d4 [r4] =
      .ok ([{ r4 with trigger_count := 1 }], d4t,
        [{ r4 with trigger_count := 1 }]) ∧
    d4t.tags.count ("high-value".toList) = 1 := by
  have hcond : checkConditions d4 r4.conditions = .ok true := rfl
  have hexec : executeActions d4 r4.actions = .ok d4t := rfl
  constructor
  · exact (claim4_trigger_once r4 d4).1 rfl d4t hcond hexec
  · exact (claim4_trigger_once r4 d4).2.1 ("high-value".toList) d4t
      (by simp [r4]) hexec (by decide)

/-! Claim C5: entity deduplication. -/

/-- The deduplication key actually used by `EntityExtractor.extract`:
the original spaCy label together with the lowercased (stripped) value. -/
def entKey (a : Ent) : Str × Str := (a.original_type, pyLower a.value)

/-- Invariant of the dedup loop: emitted entities carry keys outside
`seen` and pairwise-distinct keys. -/
lemma spacyDedup_inv :
    ∀ (ents : List SpacyEnt) (seen : List (Str × Str)),
      (∀ a ∈ spacyDedup seen ents, entKey a ∉ seen) ∧
      List.Pairwise (fun a b => entKey a ≠ entKey b) (spacyDedup seen ents) := by
  intro ents
  induction ents with
  | nil =>
    intro seen
    exact ⟨fun a ha => absurd ha (List.not_mem_nil a), List.Pairwise.nil⟩
  | cons e rest ih =>
    intro seen
    by_cases hc :
        seen.contains (e.label, pyLower (pyStrip e.text)) = true
    · have hred : spacyDedup seen (e :: rest) = spacyDedup seen rest := by
        rw [spacyDedup, if_pos hc]
      rw [hred]
      exact ih seen
    · have hred : spacyDedup seen (e :: rest) =
          (⟨mapEntityType e.label, pyStrip e.text, e.label, e.start_char,
            e.end_char, 85 / 100⟩ : Ent)
            :: spacyDedup ((e.label, pyLower (pyStrip e.text)) :: seen) rest := by
        rw [spacyDedup, if_neg hc]
      rw [hred]
      obtain ⟨ih1, ih2⟩ := ih ((e.label, pyLower (pyStrip e.text)) :: seen)
      have hkey : entKey (⟨mapEntityType e.label, pyStrip e.text, e.label,
          e.start_char, e.end_char, 85 / 100⟩ : Ent)
          = (e.label, pyLower (pyStrip e.text)) := rfl
      constructor
      · intro a ha
        rcases List.mem_cons.mp ha with rfl | hmem
        · rw [hkey]
          simpa using hc
        · intro hin
          exact ih1 a hmem (List.mem_cons_of_mem _ hin)
      · refine List.Pairwise.cons ?_ ih2
        intro b hb hbeq
        have hbmem : entKey b ∈ (e.label, pyLower (pyStrip e.text)) :: seen :=
          hbeq ▸ (hkey ▸ List.mem_cons_self _ _)
        exact ih1 b hb hbmem

/-- Claim C5 (corrected).  The claim says no two extracted entities share
`(type, value.lower())`.  The source deduplicates the spaCy loop on the
key `(ent.label_, ent.text.strip().lower())` — the original label before
`_map_entity_type` collapses labels — and appends the regex entities with
no deduplication at all, so duplicates under `(type, value.lower())` do
occur.  Amended statement proved here: within the spaCy loop no two
emitted entities share `(original_type, value.lower())`. -/
theorem claim5_spacy_dedup (ents : List SpacyEnt) :
    List.Pairwise
      (fun a b : Ent =>
        ¬(a.original_type = b.original_type ∧ pyLower a.value = pyLower b.value))
      (spacyDedup [] ents) := by
  refine (spacyDedup_inv ents []).2.imp ?_
  intro a b hne hab
  exact hne (Prod.ext hab.1 hab.2)

/-- A spaCy model returning a geopolitical and a location entity with the
same text, whose labels both map to type `LOCATION`. -/
def nlpParis : Str → Except Unit (List SpacyEnt) := fun _ =>
  .ok [⟨"GPE".toList, "Paris".toList, 0, 5⟩,
       ⟨"LOC".toList, "Paris".toList, 10, 15⟩]

/-- Counterexample to C5 as stated: extraction emits two entities that
share `(type, value.lower()) = (LOCATION, paris)`, because the dedup key
uses the original spaCy label and `GPE` and `LOC` both map to
`LOCATION`. -/
theorem claim5_counterexample :
    nerExtract nlpParis ("Paris and Paris".toList) =
      [⟨"LOCATION".toList, "Paris".toList, "GPE".toList, 0, 5, 85 / 100⟩,
       ⟨"LOCATION".toList, "Paris".toList, "LOC".toList, 10, 15, 85 / 100⟩] ∧
    ¬ List.Pairwise
      (fun a b : Ent => ¬(a.type = b.type ∧ pyLower a.value = pyLower b.value))
      (nerExtract nlpParis ("Paris and Paris".toList)) := by
  constructor
  · rfl
  · decide

/-! Classifier and pipeline lemmas for claims C1, C9 and C10. -/

/-- `max(scores, key=scores.get)` returns one of the keys. -/
lemma argmaxFirst_mem :
    ∀ l : List (Str × Nat), l ≠ [] → (argmaxFirst l).1 ∈ l.map Prod.fst := by
  intro l
  induction l with
  | nil => intro h; exact absurd rfl h
  | cons p rest ih =>
    intro _
    cases rest with
    | nil => simp [argmaxFirst]
    | cons q rest2 =>
      by_cases h : p.2 < (argmaxFirst (q :: rest2)).2
      · rw [show argmaxFirst (p :: q :: rest2) = argmaxFirst (q :: rest2) from
          by rw [argmaxFirst, if_pos h]]
        simp only [List.map_cons, List.mem_cons]
        exact Or.inr (by simpa using ih (by simp))
      · rw [show argmaxFirst (p :: q :: rest2) = p from
          by rw [argmaxFirst, if_neg h]]
        simp

/-- Rounding to four places keeps a value of `[0, 1]` inside `[0, 1]`. -/
lemma pyRound4_bounds {q : ℚ} (h0 : 0 ≤ q) (h1 : q ≤ 1) :
    0 ≤ pyRound4 q ∧ pyRound4 q ≤ 1 := by
  unfold pyRound4
  have hlo : (0 : ℤ) ≤ round (q * 10000) := by
    rw [round_eq]
    exact Int.le_floor.mpr (by push_cast; linarith)
  have hhi : round (q * 10000) ≤ (10000 : ℤ) := by
    rw [round_eq]
    have h2 : (⌊q * 10000 + 1 / 2⌋ : ℤ) ≤ ⌊(10000 : ℚ) + 1 / 2⌋ :=
      Int.floor_le_floor (by linarith)
    have h3 : ⌊(10000 : ℚ) + 1 / 2⌋ = 10000 := by
      rw [Int.floor_eq_iff]
      norm_num
    omega
  constructor
  · apply div_nonneg _ (by norm_num)
    exact_mod_cast hlo
  · rw [div_le_one (by norm_num)]
    exact_mod_cast hhi

/-- The keyword fallback classifier always yields a label from the fixed
category list and a confidence in `[0, 1]`. -/
lemma keywordClassify_sound (text : Str) :
    (keywordClassify text).label ∈ DOCUMENT_CATEGORIES ∧
    0 ≤ (keywordClassify text).confidence ∧
    (keywordClassify text).confidence ≤ 1 := by
  unfold keywordClassify
  set scores := KEYWORDS.map
    (fun p => (p.1, (p.2.filter (fun kw => pyContains kw (pyLower text))).length))
    with hscores
  by_cases hall : scores.all (fun p => p.2 = 0) = true
  · rw [if_pos hall]
    refine ⟨?_, ?_, ?_⟩
    · show ("other".toList) ∈ DOCUMENT_CATEGORIES
      decide
    · show (0 : ℚ) ≤ 1 / 2
      norm_num
    · show (1 : ℚ) / 2 ≤ 1
      norm_num
  · rw [if_neg hall]
    have h0 : (0 : ℚ) ≤ min (((argmaxFirst scores).2 : ℚ) / 3) 1 :=
      le_min (by positivity) (by norm_num)
    refine ⟨?_, (pyRound4_bounds h0 (min_le_right _ _)).1,
      (pyRound4_bounds h0 (min_le_right _ _)).2⟩
    have h1 : (argmaxFirst scores).1 ∈ scores.map Prod.fst :=
      argmaxFirst_mem scores (by rw [hscores]; simp [KEYWORDS])
    have h2 : scores.map Prod.fst = KEYWORDS.map Prod.fst := by
      rw [hscores, List.map_map]; rfl
    rw [h2] at h1
    have h3 : ∀ x ∈ KEYWORDS.map Prod.fst, x ∈ DOCUMENT_CATEGORIES := by decide
    exact h3 _ h1

/-- Claim C1 (confirmed).  `process_document` never raises — witnessed by
its total (non-`Except`) return type, every internal capability failure
being caught — and under the documented capability contract (a successful
injected `classify` returns a label from the fixed category list, which
already contains `"other"`, and a confidence in `[0, 1]`) the returned
classification lies in the fixed category list and the confidence in
`[0, 1]`, for every content, MIME type, classifier (including one that
raises on every call, which falls back to the keyword classifier) and
entity extractor. -/
theorem claim1_pipeline_total_and_bounded (caps : OCRCaps)
    (classify : Str → Except Unit CRes)
    (nlp : Str → Except Unit (List SpacyEnt)) (content : List Nat)
    (mime : Str)
    (Hc : ∀ t r, classify t = .ok r →
      r.label ∈ DOCUMENT_CATEGORIES ∧ 0 ≤ r.confidence ∧ r.confidence ≤ 1) :
    (processDocument caps classify nlp content mime).classification
        ∈ DOCUMENT_CATEGORIES ∧
    0 ≤ (processDocument caps classify nlp content mime).confidence ∧
    (processDocument caps classify nlp content mime).confidence ≤ 1 := by
  unfold processDocument
  by_cases hempty : pyStrip (ocrExtractText caps content mime) = []
  · rw [if_pos hempty]
    refine ⟨by decide, ?_, ?_⟩
    · show (0 : ℚ) ≤ 0
      norm_num
    · show (0 : ℚ) ≤ 1
      norm_num
  · rw [if_neg hempty]
    cases hcl : classify (ocrExtractText caps content mime) with
    | ok r =>
      simp only [hcl]
      exact Hc _ r hcl
    | error e =>
      simp only [hcl]
      exact keywordClassify_sound _

/-- Capabilities whose extraction leaves all fail and whose text decoding
is the identity on ASCII byte values. -/
def capsFail : OCRCaps :=
  { readPdfText := fun _ => .error (), ocrPdf := fun _ => .error (),
    ocrImage := fun _ => .error (),
    decodeText := fun bs => bs.map Char.ofNat }

/-- Witness for C1: a classifier raising on every call, on a plain-text
upload; the keyword fallback classifies it as an invoice. -/
theorem claim1_witness :
    ((processDocument capsFail (fun _ => .error ()) (fun _ => .error ())
        (("invoice payment due".toList).map Char.toNat)
        ("text/plain".toList)).classification ∈ DOCUMENT_CATEGORIES ∧
      0 ≤ (processDocument capsFail (fun _ => .error ()) (fun _ => .error ())
        (("invoice payment due".toList).map Char.toNat)
        ("text/plain".toList)).confidence ∧
      (processDocument capsFail (fun _ => .error ()) (fun _ => .error ())
        (("invoice payment due".toList).map Char.toNat)
        ("text/plain".toList)).confidence ≤ 1) ∧
    (processDocument capsFail (fun _ => .error ()) (fun _ => .error ())
        (("invoice payment due".toList).map Char.toNat)
        ("text/plain".toList)).classification = "invoice".toList :=
  ⟨claim1_pipeline_total_and_bounded capsFail _ _ _ _
      (fun _ r h => Except.noConfusion h),
    by decide⟩

/-- Claim C9 (confirmed).  Blank extracted text short-circuits: the
pipeline returns the fixed `no_text` result — status `no_text`,
classification `other`, confidence `0`, no entities — for every injected
classifier and extractor, which also expresses that neither capability is
invoked on that path. -/
theorem claim9_no_text_short_circuit (caps : OCRCaps)
    (classify : Str → Except Unit CRes)
    (nlp : Str → Except Unit (List SpacyEnt)) (content : List Nat)
    (mime : Str)
    (H : pyStrip (ocrExtractText caps content mime) = []) :
    processDocument caps classify nlp content mime = noTextResult := by
  unfold processDocument
  rw [if_pos H]

/-- Capabilities for the C9 witness. -/
def caps9 : OCRCaps :=
  { readPdfText := fun _ => .error (), ocrPdf := fun _ => .error (),
    ocrImage := fun _ => .error (),
    decodeText := fun bs => bs.map Char.ofNat }

/-- Witness for C9: an unsupported MIME type yields empty text, and even
a classifier that would return a non-category label is never consulted. -/
theorem claim9_witness :
    processDocument caps9 (fun _ => .ok ⟨"banana".toList, 7, []⟩)
      (fun _ => .ok []) [] ("application/zip".toList) = noTextResult :=
  claim9_no_text_short_circuit caps9 _ _ _ _ rfl

/-- Claim C10 (corrected).  Primary classification truncates its input to
the first 1024 characters and entity extraction to the first 100000, as
claimed; but the keyword fallback used when the primary classifier raises
receives the full text untruncated (the pipeline calls
`fallback.classify(text)` and `KeywordClassifier.classify` has no
`max_length`), so on the fallback path classification is not restricted
to the 1024-character prefix.  Amended statement proved here: the first
two truncations hold, and there is a text on which the keyword fallback's
label differs from its label on the 1024-character prefix. -/
theorem claim10_truncation :
    (∀ (loaded : Bool) (zs : Str → Except Unit ZSRes) (text : Str),
      docClassify loaded zs text = docClassify loaded zs (text.take 1024)) ∧
    (∀ (nlp : Str → Except Unit (List SpacyEnt)) (text : Str),
      nerExtract nlp text =
        if text = [] || pyStrip text = [] then []
        else nerCore nlp (text.take 100000)) ∧
    (∃ text : Str,
      (keywordClassify text).label ≠ (keywordClassify (text.take 1024)).label) := by
  refine ⟨?_, ?_, ?_⟩
  · intro loaded zs text
    unfold docClassify
    have h : (if 1024 < text.length then text.take 1024 else text)
        = text.take 1024 := by
      split
      · rfl
      · rw [List.take_of_length_le (by omega)]
    have h2 : (if 1024 < (text.take 1024).length then
          (text.take 1024).take 1024 else text.take 1024) = text.take 1024 := by
      rw [if_neg]
      simp only [List.length_take]
      omega
    rw [h, h2]
  · intro nlp text
    unfold nerExtract
    by_cases hc : (text = [] || pyStrip text = []) = true
    · rw [if_pos hc, if_pos hc]
    · rw [if_neg hc, if_neg hc]
      congr 1
      split
      · rfl
      · rw [List.take_of_length_le (by omega)]
  · exact ⟨List.replicate 1024 'x' ++ ("invoice".toList), by decide⟩

/-- Counterexample to C10 as stated: on a 1031-character plain-text
document whose only keyword lies beyond position 1024, a raising primary
classifier makes the pipeline classify via the untruncated fallback as
`invoice`, while the 1024-character prefix would classify as `other`. -/
theorem claim10_counterexample :
    (processDocument capsFail (fun _ => .error ()) (fun _ => .error ())
        ((List.replicate 1024 'x' ++ ("invoice".toList)).map Char.toNat)
        ("text/plain".toList)).classification = "invoice".toList ∧
    (keywordClassify ((List.replicate 1024 'x' ++ ("invoice".toList)).take
        1024)).label = "other".toList := by
  constructor
  · decide
  · decide

/-! Search lemmas for claims C6, C7 and C8. -/

/-- One entity-loop step in closed additive form. -/
lemma entStep_eq (qL : Str) (et ev : Option Str) (acc : ℚ) (e : SEnt) :
    entStep qL et ev acc e =
      acc + (if pyContains qL (pyLower e.value) then 3 / 2 else 0)
        + (if entFilterSat et ev e then 1 / 2 else 0) := by
  unfold entStep
  by_cases h1 : pyContains qL (pyLower e.value) = true
  · by_cases h2 : entFilterSat et ev e = true
    · simp [h1, h2]
    · simp [h1, h2]
  · by_cases h2 : entFilterSat et ev e = true
    · simp [h1, h2]
    · simp [h1, h2]

/-- The entity loop adds `1.5` per query-matching entity and `0.5` per
filter-satisfying entity to its accumulator. -/
lemma entStep_foldl (qL : Str) (et ev : Option Str) :
    ∀ (ents : List SEnt) (acc : ℚ),
      ents.foldl (entStep qL et ev) acc =
        acc + (3 / 2) *
            ((ents.filter fun e => pyContains qL (pyLower e.value)).length : ℚ)
          + (1 / 2) * ((ents.filter fun e => entFilterSat et ev e).length : ℚ) := by
  intro ents
  induction ents with
  | nil => intro acc; simp
  | cons e rest ih =>
    intro acc
    by_cases h1 : pyContains qL (pyLower e.value) = true <;>
      by_cases h2 : entFilterSat et ev e = true <;>
        simp [List.foldl_cons, List.filter_cons, entStep_eq, h1, h2, ih] <;>
        push_cast <;> ring

/-- The score component of `scoreDoc` in closed form: strictly additive
from zero, with `+2` for a filename match, `+1` for a body match, `+1.5`
per query-matching entity and `+0.5` per filter-satisfying entity. -/
lemma scoreDoc_score_eq (query : Str) (et ev : Option Str) (doc : SDoc)
    (ents : List SEnt) :
    (scoreDoc query et ev doc ents).1 =
      (if pyContains (pyLower query) (pyLower doc.filename) then 2 else 0)
      + (if pyContains (pyLower query)
            (pyLower (doc.extracted_text.getD [])) then 1 else 0)
      + (3 / 2) * ((ents.filter fun e =>
          pyContains (pyLower query) (pyLower e.value)).length : ℚ)
      + (1 / 2) * ((ents.filter fun e => entFilterSat et ev e).length : ℚ) := by
  unfold scoreDoc
  by_cases hf : pyContains (pyLower query) (pyLower doc.filename) = true <;>
    by_cases hb : pyContains (pyLower query)
      (pyLower (doc.extracted_text.getD [])) = true <;>
      simp [hf, hb, entStep_foldl] <;> push_cast <;> ring

/-- Membership through the stable insertion. -/
lemma mem_pyInsertDesc {x y : SResult} :
    ∀ l : List SResult, y ∈ pyInsertDesc x l ↔ y = x ∨ y ∈ l := by
  intro l
  induction l with
  | nil => simp [pyInsertDesc]
  | cons z zs ih =>
    rw [pyInsertDesc]
    by_cases hc : x.score ≤ z.score
    · rw [if_pos hc, List.mem_cons, ih, List.mem_cons]
      tauto
    · rw [if_neg hc, List.mem_cons, List.mem_cons]

/-- The stable insertion preserves score-descending sortedness. -/
lemma sorted_pyInsertDesc {x : SResult} :
    ∀ l : List SResult, l.Sorted (fun a b => b.score ≤ a.score) →
      (pyInsertDesc x l).Sorted (fun a b => b.score ≤ a.score) := by
  intro l
  induction l with
  | nil => intro _; simp [pyInsertDesc]
  | cons z zs ih =>
    intro h
    obtain ⟨hz, hzs⟩ := List.sorted_cons.mp h
    rw [pyInsertDesc]
    by_cases hc : x.score ≤ z.score
    · rw [if_pos hc]
      refine List.sorted_cons.mpr ⟨?_, ih hzs⟩
      intro b hb
      rcases (mem_pyInsertDesc zs).mp hb with rfl | hbz
      · exact hc
      · exact hz b hbz
    · rw [if_neg hc]
      push_neg at hc
      refine List.sorted_cons.mpr ⟨?_, h⟩
      intro b hb
      rcases List.mem_cons.mp hb with rfl | hbz
      · exact le_of_lt hc
      · exact le_trans (hz b hbz) (le_of_lt hc)

/-- The fold underlying `pySortDesc`, generalized over the accumulator. -/
lemma sorted_pySortDesc_aux :
    ∀ (l acc : List SResult), acc.Sorted (fun a b => b.score ≤ a.score) →
      (l.foldl (fun acc x => pyInsertDesc x acc) acc).Sorted
        (fun a b => b.score ≤ a.score) := by
  intro l
  induction l with
  | nil => intro acc h; exact h
  | cons x xs ih =>
    intro acc h
    exact ih (pyInsertDesc x acc) (sorted_pyInsertDesc acc h)

/-- The Python stable sort returns a score-descending list. -/
lemma sorted_pySortDesc (l : List SResult) :
    (pySortDesc l).Sorted (fun a b => b.score ≤ a.score) :=
  sorted_pySortDesc_aux l [] (by simp)

/-- Sorting preserves membership. -/
lemma mem_pySortDesc_aux {y : SResult} :
    ∀ (l acc : List SResult),
      (y ∈ l.foldl (fun acc x => pyInsertDesc x acc) acc ↔ y ∈ acc ∨ y ∈ l) := by
  intro l
  induction l with
  | nil => intro acc; simp
  | cons x xs ih =>
    intro acc
    simp only [List.foldl_cons, ih, mem_pyInsertDesc, List.mem_cons]
    tauto

/-- Membership in the sorted results coincides with the raw loop. -/
lemma mem_pySortDesc {y : SResult} (l : List SResult) :
    y ∈ pySortDesc l ↔ y ∈ l := by
  rw [pySortDesc, mem_pySortDesc_aux]
  simp

/-- Every result emitted by the search loop has a positive score. -/
lemma searchLoop_pos (entsMap : List (Str × List SEnt)) (uid q : Str)
    (cls et ev df dt : Option Str) :
    ∀ (docs : List (Str × SDoc)) (r : SResult),
      r ∈ searchLoop entsMap uid q cls et ev df dt docs → 0 < r.score := by
  intro docs
  induction docs with
  | nil => intro r hr; simp [searchLoop] at hr
  | cons p rest ih =>
    obtain ⟨docId, doc⟩ := p
    intro r hr
    simp only [searchLoop] at hr
    split at hr
    · exact ih r hr
    · split at hr
      · exact ih r hr
      · split at hr
        · exact ih r hr
        · split at hr
          · exact ih r hr
          · split at hr
            · rcases List.mem_cons.mp hr with rfl | hmem
              · simpa using (by assumption : 0 <
                  (scoreDoc q et ev doc (entsGet entsMap docId)).1)
              · exact ih r hmem
            · exact ih r hr

/-- Claim C6 (confirmed).  Scoring is strictly additive starting at 0
(+2 filename, +1 body, +1.5 per query-matching entity, uncapped); a
document matching in filename, body and exactly two entities, with no
entity filters supplied, scores exactly 6; zero-scoring documents never
appear in results; and the returned page is ordered by score
descending. -/
theorem claim6_scoring :
    (∀ (query : Str) (et ev : Option Str) (doc : SDoc) (ents : List SEnt),
      (scoreDoc query et ev doc ents).1 =
        (if pyContains (pyLower query) (pyLower doc.filename) then 2 else 0)
        + (if pyContains (pyLower query)
              (pyLower (doc.extracted_text.getD [])) then 1 else 0)
        + (3 / 2) * ((ents.filter fun e =>
            pyContains (pyLower query) (pyLower e.value)).length : ℚ)
        + (1 / 2) * ((ents.filter fun e => entFilterSat et ev e).length : ℚ)) ∧
    (∀ (query : Str) (doc : SDoc) (ents : List SEnt),
      pyContains (pyLower query) (pyLower doc.filename) = true →
      pyContains (pyLower query) (pyLower (doc.extracted_text.getD [])) = true →
      (ents.filter fun e =>
        pyContains (pyLower query) (pyLower e.value)).length = 2 →
      (scoreDoc query none none doc ents).1 = 6) ∧
    (∀ (docs : List (Str × SDoc)) (entsMap : List (Str × List SEnt))
      (uid query : Str) (cls et ev df dt : Option Str) (page psize : Nat)
      (r : SResult),
      r ∈ (search docs entsMap uid query cls et ev df dt page psize).1 →
      0 < r.score) ∧
    (∀ (docs : List (Str × SDoc)) (entsMap : List (Str × List SEnt))
      (uid query : Str) (cls et ev df dt : Option Str) (page psize : Nat),
      ((search docs entsMap uid query cls et ev df dt page psize).1).Sorted
        (fun a b => b.score ≤ a.score)) := by
  refine ⟨fun q et ev doc ents => scoreDoc_score_eq q et ev doc ents,
    ?_, ?_, ?_⟩
  · intro q doc ents hf hb hcount
    have hfil : (ents.filter fun e => entFilterSat none none e) = [] :=
      List.filter_eq_nil_iff.mpr (fun a _ => by simp [entFilterSat])
    rw [scoreDoc_score_eq, hf, hb, hcount, hfil]
    norm_num
  · intro docs entsMap uid q cls et ev df dt page psize r hr
    have hmem : r ∈ pySortDesc
        (searchLoop entsMap uid q cls et ev df dt docs) :=
      ((List.take_sublist _ _).trans (List.drop_sublist _ _)).subset hr
    exact searchLoop_pos entsMap uid q cls et ev df dt docs r
      ((mem_pySortDesc _).mp hmem)
  · intro docs entsMap uid q cls et ev df dt page psize
    exact List.Pairwise.sublist
      ((List.take_sublist _ _).trans (List.drop_sublist _ _))
      (sorted_pySortDesc _)

/-- A document matching the C6 scenario: query in filename, body and
exactly two entity values. -/
def doc6 : SDoc :=
  { user_id := "u1".toList, filename := "invoice.pdf".toList,
    classification := some ("invoice".toList),
    extracted_text := some ("see the invoice attached".toList),
    created_at := "2024-01-01T00:00:00".toList }

/-- The two matching entities of that scenario. -/
def ents6 : List SEnt :=
  [⟨"MONEY".toList, "invoice 15000".toList⟩,
   ⟨"ORGANIZATION".toList, "Invoice Corp".toList⟩]

/-- Witness for C6: the scenario document scores exactly 6. -/
theorem claim6_witness :
    (scoreDoc ("invoice".toList) none none doc6 ents6).1 = 6 :=
  claim6_scoring.2.1 ("invoice".toList) doc6 ents6 (by decide) (by decide)
    (by decide)

/-- Claim C7 (corrected).  The claim says the entity-filter bonus adds
exactly `0.5` once per document when some entity satisfies both filters.
In the source the `+0.5` sits inside the per-entity loop, so it is added
once per satisfying entity.  Amended statement proved here: the score
with filters equals the unfiltered score plus `0.5` per satisfying
entity — additive with and independent of the `+1.5` per-entity query
bonus (which is part of the unfiltered score). -/
theorem claim7_filter_bonus_per_entity (query : Str) (et ev : Option Str)
    (doc : SDoc) (ents : List SEnt) :
    (scoreDoc query et ev doc ents).1 =
      (scoreDoc query none none doc ents).1
      + (1 / 2) * ((ents.filter fun e => entFilterSat et ev e).length : ℚ) := by
  rw [scoreDoc_score_eq, scoreDoc_score_eq]
  have hfil : (ents.filter fun e => entFilterSat none none e) = [] :=
    List.filter_eq_nil_iff.mpr (fun a _ => by simp [entFilterSat])
  rw [hfil]
  simp only [List.length_nil, Nat.cast_zero, mul_zero, add_zero]

/-- A document that matches the query nowhere. -/
def doc7 : SDoc :=
  { user_id := "u1".toList, filename := "report.pdf".toList,
    classification := some ("report".toList),
    extracted_text := some ("quarterly numbers".toList),
    created_at := "2024-01-01T00:00:00".toList }

/-- Two entities that both satisfy an entity-type plus entity-value
filter pair. -/
def ents7 : List SEnt :=
  [⟨"MONEY".toList, "15000 USD".toList⟩,
   ⟨"MONEY".toList, "25000 USD".toList⟩]

/-- Counterexample to C7 as stated: with two satisfying entities the
filter bonus contributes `1.0`, not a single `0.5`. -/
theorem claim7_counterexample :
    (scoreDoc ("zzz".toList) (some ("MONEY".toList)) (some ("USD".toList))
      doc7 ents7).1 = 1 ∧
    (1 : ℚ) ≠ 1 / 2 := by
  constructor
  · rw [scoreDoc_score_eq]
    rw [show pyContains (pyLower ("zzz".toList)) (pyLower doc7.filename)
        = false from by decide]
    rw [show pyContains (pyLower ("zzz".toList))
        (pyLower (doc7.extracted_text.getD [])) = false from by decide]
    rw [show (ents7.filter fun e =>
        pyContains (pyLower ("zzz".toList)) (pyLower e.value)) = [] from
        by decide]
    rw [show (ents7.filter fun e =>
        entFilterSat (some ("MONEY".toList)) (some ("USD".toList)) e)
        = ents7 from by decide]
    norm_num [ents7]
  · norm_num

/-! Snippet lemmas for claim C8. -/

/-- `str.find` soundness: the needle occurs at the returned index. -/
lemma pyFind_sound :
    ∀ (n h : Str) (i : Nat), pyFind n h = some i →
      pyStartsWith n (h.drop i) = true := by
  intro n h
  induction h with
  | nil =>
    intro i hf
    rw [pyFind] at hf
    by_cases hs : pyStartsWith n [] = true
    · rw [if_pos hs] at hf
      cases hf
      simpa using hs
    · rw [if_neg hs] at hf
      cases hf
  | cons c cs ih =>
    intro i hf
    rw [pyFind] at hf
    by_cases hs : pyStartsWith n (c :: cs) = true
    · rw [if_pos hs] at hf
      cases hf
      simpa using hs
    · rw [if_neg hs] at hf
      cases hfc : pyFind n cs with
      | none => rw [hfc] at hf; cases hf
      | some j =>
        rw [hfc] at hf
        simp only [Option.map_some'] at hf
        cases hf
        simpa [List.drop_succ_cons] using ih j hfc

/-- A contained needle has a first occurrence index. -/
lemma pyContains_find :
    ∀ (n h : Str), pyContains n h = true → ∃ i, pyFind n h = some i := by
  intro n h
  induction h with
  | nil =>
    intro hc
    rw [pyContains] at hc
    exact ⟨0, by rw [pyFind, if_pos hc]⟩
  | cons c cs ih =>
    intro hc
    rw [pyContains] at hc
    by_cases hs : pyStartsWith n (c :: cs) = true
    · exact ⟨0, by rw [pyFind, if_pos hs]⟩
    · have hc2 : pyContains n cs = true := by
        have hs2 : pyStartsWith n (c :: cs) = false := by simpa using hs
        rw [hs2, Bool.false_or] at hc
        exact hc
      obtain ⟨j, hj⟩ := ih hc2
      refine ⟨j + 1, ?_⟩
      rw [pyFind, if_neg hs, hj]
      rfl

/-- A successful prefix test pins down the corresponding take. -/
lemma pyStartsWith_take :
    ∀ (n s : Str), pyStartsWith n s = true → s.take n.length = n := by
  intro n
  induction n with
  | nil => intro s _; simp
  | cons a as ih =>
    intro s hs
    cases s with
    | nil => simp [pyStartsWith] at hs
    | cons b bs =>
      rw [pyStartsWith] at hs
      simp only [Bool.and_eq_true, decide_eq_true_eq] at hs
      simp only [List.length_cons, List.take_succ_cons, ih bs hs.2, hs.1]

/-- Claim C8 (corrected).  The claim says the body snippet is a
100-character window of the body text centered on the first match,
wrapped in ellipses.  The source takes 50 characters before the match
start and 50 after the match end, so the window is `len(query) + 100`
characters for an interior match (clamped at the text bounds), not 100.
Amended statement proved here: the snippet is the ellipsis-wrapped slice
`text[max(0, idx - 50) : min(len(text), idx + len(query) + 50)]` around
the first occurrence `idx`; for an interior match its total length is
`len(query) + 106` counting both ellipses, and the query sits 50
characters into the window (case-insensitively). -/
theorem claim8_snippet_window (query : Str) (et ev : Option Str)
    (doc : SDoc) (ents : List SEnt) (idx : Nat)
    (hidx : pyFind (pyLower query) (pyLower (doc.extracted_text.getD []))
      = some idx)
    (hb : pyContains (pyLower query)
      (pyLower (doc.extracted_text.getD [])) = true) :
    (scoreDoc query et ev doc ents).2 =
      ("...".toList)
        ++ pySlice (doc.extracted_text.getD []) (idx - 50)
          (min (doc.extracted_text.getD []).length (idx + query.length + 50))
        ++ ("...".toList) ∧
    (50 ≤ idx →
      idx + query.length + 50 ≤ (doc.extracted_text.getD []).length →
      ((scoreDoc query et ev doc ents).2).length = query.length + 106) ∧
    (50 ≤ idx →
      idx + query.length + 50 ≤ (doc.extracted_text.getD []).length →
      pyLower (((pySlice (doc.extracted_text.getD []) (idx - 50)
          (min (doc.extracted_text.getD []).length
            (idx + query.length + 50))).drop 50).take query.length)
        = pyLower query) := by
  have hsnip : (scoreDoc query et ev doc ents).2 =
      ("...".toList)
        ++ pySlice (doc.extracted_text.getD []) (idx - 50)
          (min (doc.extracted_text.getD []).length (idx + query.length + 50))
        ++ ("...".toList) := by
    unfold scoreDoc
    by_cases hf : pyContains (pyLower query) (pyLower doc.filename) = true <;>
      simp [hf, hb, hidx, Nat.add_comm, Nat.add_assoc, Nat.add_left_comm]
  refine ⟨hsnip, fun h50 hlen => ?_, fun h50 hlen => ?_⟩
  · rw [hsnip]
    simp only [List.length_append, pySlice, List.length_take, List.length_drop]
    have h3 : ("...".toList).length = 3 := rfl
    rw [h3]
    omega
  · have hmin : min (doc.extracted_text.getD []).length
        (idx + query.length + 50) = idx + query.length + 50 :=
      min_eq_right hlen
    rw [hmin]
    have hstop : idx + query.length + 50 - (idx - 50) = query.length + 100 := by
      omega
    rw [pySlice, hstop]
    have htk : ((((doc.extracted_text.getD []).drop (idx - 50)).take
          (query.length + 100)).drop 50).take query.length =
        ((doc.extracted_text.getD []).drop idx).take query.length := by
      rw [List.drop_take, List.drop_drop, List.take_take]
      rw [show idx - 50 + 50 = idx from by omega,
        show min query.length (query.length + 100 - 50) = query.length from
          by omega]
    rw [htk]
    have hlow : pyLower (((doc.extracted_text.getD []).drop idx).take
        query.length) = ((pyLower (doc.extracted_text.getD [])).drop
          idx).take query.length := by
      simp [pyLower, List.map_take, List.map_drop]
    rw [hlow]
    have hstart := pyFind_sound _ _ _ hidx
    have htake := pyStartsWith_take _ _ hstart
    simpa [pyLower] using htake

/-- A document whose body holds the query at index 60 of 127
characters. -/
def doc8 : SDoc :=
  { user_id := "u1".toList, filename := "x.pdf".toList,
    classification := none,
    extracted_text := some (List.replicate 60 'a' ++ ("invoice".toList)
      ++ List.replicate 60 'b'),
    created_at := "2024-01-01T00:00:00".toList }

/-- Witness for C8: for the 7-character query the snippet measures
`7 + 106 = 113` characters. -/
theorem claim8_witness :
    ((scoreDoc ("invoice".toList) none none doc8 []).2).length = 113 := by
  have h := (claim8_snippet_window ("invoice".toList) none none doc8 [] 60
    (by decide) (by decide)).2.1 (by norm_num) (by decide)
  rw [show ("invoice".toList).length = 7 from rfl] at h
  exact h

/-- Counterexample to C8 as stated: the snippet body is not a
100-character window — with the ellipses a 100-character window measures
106 characters, but the produced snippet measures 113. -/
theorem claim8_counterexample :
    ((scoreDoc ("invoice".toList) none none doc8 []).2).length = 113 ∧
    ((scoreDoc ("invoice".toList) none none doc8 []).2).length ≠ 106 := by
  constructor
  · decide
  · decide

end DocVault
